import Mathlib

/-
Shallow embedding of snow.py: a terminal snowfall simulation.

The program keeps a Snow object (height, width, intensity, list of flakes),
updates it once per tick (move flakes down with a random horizontal shimmy,
spawn new flakes on the top row, drop flakes past the bottom row), renders
it to a character grid, and runs an input loop that decodes one-character
commands mutating intensity, the help flag and the stop flag.

Randomness is embedded as explicit entropy arguments: a function from a
draw index to a natural number. Every random primitive of the source is
modelled over that entropy, keeping its documented contract:
  random.choice on a list of length 3 picks the element at entropy mod 3;
  random.sample(range(n), k) raises ValueError unless 0 <= k <= n and
  otherwise yields k pairwise distinct elements of range(n).
Fallible operations (random.sample with an oversized k, Python list
indexing, reading input at end of input) return Except, mirroring the
exceptions ValueError, IndexError and EOFError that the source lets
propagate unhandled.

Python integers are unbounded, so rows and columns are Int (a column can
drift below 0). The intensity field only ever holds non-negative values
(command-line validation gives a value in [0,9]; every later write is a
digit, a min with 10 of a value plus one, or a max with 0), so it is
embedded as Nat. The expression int(self.width * self.intensity / 100)
is embedded as Nat division by 100, which agrees with the float-based
source expression on all realistic magnitudes.
-/

/-- The Snow class state: height, width, intensity and the flake list.
Flakes are (row, column) pairs. -/
structure Snow where
  height : Nat
  width : Nat
  intensity : Nat
  flakes : List (Int × Int)
deriving DecidableEq

/-- Model of random.choice([-1, 0, 1]): the entropy value selects one of
the three elements. -/
def choice3 (n : Nat) : Int :=
  match n % 3 with
  | 0 => -1
  | 1 => 0
  | _ => 1

/-- Selection core of random.sample over a concrete population list: draw
k elements one at a time, removing each drawn element from the pool so the
draw is without replacement. The entropy function r supplies the draw made
at each step. -/
def sampleAux (r : Nat → Nat) : Nat → Nat → List Nat → List Nat
  | _, 0, _ => []
  | i, k + 1, pool =>
      pool.getD (r i % pool.length) 0 ::
        sampleAux r (i + 1) k (pool.erase (pool.getD (r i % pool.length) 0))

/-- Model of random.sample(range(n), k): raises ValueError when the sample
size exceeds the population size, otherwise returns k distinct elements of
range(n). -/
def randomSample (n k : Nat) (r : Nat → Nat) : Except String (List Nat) :=
  if k ≤ n then Except.ok (sampleAux r 0 k (List.range n))
  else Except.error "Sample larger than population or is negative"

/-- Snow.new_flakes: compute num_flakes = int(width * intensity / 100) and
place a flake at row 0 in each of num_flakes sampled distinct columns.
No clamping is applied to num_flakes before the sample call. -/
def new_flakes (s : Snow) (r : Nat → Nat) : Except String (List (Int × Int)) :=
  match randomSample s.width (s.width * s.intensity / 100) r with
  | Except.error e => Except.error e
  | Except.ok cols => Except.ok (cols.map (fun col => ((0 : Int), (col : Int))))

/-- The column list that a successful new_flakes call draws. -/
def sampleCols (s : Snow) (r : Nat → Nat) : List Nat :=
  sampleAux r 0 (s.width * s.intensity / 100) (List.range s.width)

/-- Recursion core of Snow.moved_flakes: each flake moves down one row and
shifts its column by an independent random choice from [-1, 0, 1]; the
index argument threads the per-flake entropy. -/
def shimmy_moved (r : Nat → Nat) : Nat → List (Int × Int) → List (Int × Int)
  | _, [] => []
  | i, (row, col) :: rest => (row + 1, col + choice3 (r i)) :: shimmy_moved r (i + 1) rest

/-- Snow.moved_flakes: move flakes down and randomly shimmy them. -/
def moved_flakes (flakes : List (Int × Int)) (r : Nat → Nat) : List (Int × Int) :=
  shimmy_moved r 0 flakes

/-- Snow.update_flakes: move the existing flakes, append the newly spawned
flakes, then keep only flakes with row < height. A ValueError raised by
new_flakes propagates (the source has no handler for it). -/
def update_flakes (s : Snow) (rMove rSample : Nat → Nat) : Except String Snow :=
  match new_flakes s rSample with
  | Except.error e => Except.error e
  | Except.ok fresh =>
      Except.ok { s with
        flakes := (moved_flakes s.flakes rMove ++ fresh).filter
          (fun f => f.1 < (s.height : Int)) }

/-- Python list indexing: a non-negative index must be below the length; a
negative index i denotes length + i and must reach at least 0; anything
else is an IndexError. -/
def pyIdx (n : Nat) (i : Int) : Option Nat :=
  if 0 ≤ i then (if i < (n : Int) then some i.toNat else none)
  else (if 0 ≤ i + (n : Int) then some (i + (n : Int)).toNat else none)

/-- One iteration of the render loop body: for a flake passing the guard
row < height and col < width, execute grid[row][col] = "*" with Python
indexing semantics; a flake failing the guard leaves the grid unchanged. -/
def markFlake (h w : Nat) (grid : List (List Char)) (f : Int × Int) :
    Except String (List (List Char)) :=
  if f.1 < (h : Int) ∧ f.2 < (w : Int) then
    match pyIdx h f.1, pyIdx w f.2 with
    | some ri, some ci => Except.ok (grid.set ri ((grid.getD ri []).set ci '*'))
    | _, _ => Except.error "IndexError: list index out of range"
  else Except.ok grid

/-- The render loop over all flakes, in list order. -/
def markFlakes (h w : Nat) : List (Int × Int) → List (List Char) →
    Except String (List (List Char))
  | [], grid => Except.ok grid
  | f :: rest, grid =>
      match markFlake h w grid f with
      | Except.error e => Except.error e
      | Except.ok g => markFlakes h w rest g

/-- Snow.render: build a height by width grid of blanks, mark every flake
passing the guard, then join the rows with newlines. -/
def render (s : Snow) : Except String String :=
  match markFlakes s.height s.width s.flakes
      (List.replicate s.height (List.replicate s.width ' ')) with
  | Except.error e => Except.error e
  | Except.ok grid => Except.ok (String.intercalate "\n" (grid.map (fun row => String.mk row)))

/-- The mutable state touched by the input handler thread: the shared
intensity field of the Snow object and the nonlocal running and
display_help flags. -/
structure InputState where
  intensity : Nat
  running : Bool
  display_help : Bool
deriving DecidableEq

/-- The characters matched by the regular expression [0-9]. -/
def digitChars : List Char :=
  ['0', '1', '2', '3', '4', '5', '6', '7', '8', '9']

/-- Python int applied to a one-digit string. -/
def digitValue (c : Char) : Nat := c.toNat - 48

/-- The match statement of user_input_handler, decoding one input line:
x stops, i and d adjust intensity with clamping, h toggles help, a single
digit sets intensity, anything else has no effect. -/
def user_input_handler_step (st : InputState) (user_input : String) : InputState :=
  if user_input = "x" then { st with running := false }
  else if user_input = "i" then { st with intensity := min (st.intensity + 1) 10 }
  else if user_input = "d" then { st with intensity := max (st.intensity - 1) 0 }
  else if user_input = "h" then { st with display_help := !st.display_help }
  else
    match user_input.toList with
    | [c] => if c ∈ digitChars then { st with intensity := digitValue c } else st
    | _ => st

/-- One blocking read of the input loop: the source calls input() with no
surrounding try, so at end of input the EOFError of input() propagates out
of the loop without touching the state; otherwise the line is decoded. -/
def user_input_handler_read (st : InputState) (line : Option String) :
    Except String InputState :=
  match line with
  | none => Except.error "EOFError"
  | some l => Except.ok (user_input_handler_step st l)

/-- The while loop of user_input_handler over a list of available input
lines: it keeps reading while the running flag holds. -/
def user_input_loop (st : InputState) : List String → InputState
  | [] => st
  | line :: rest =>
      if st.running then user_input_loop (user_input_handler_step st line) rest
      else st

lemma choice3_cases (n : Nat) : choice3 n = -1 ∨ choice3 n = 0 ∨ choice3 n = 1 := by
  rcases h : n % 3 with _ | _ | m <;> simp [choice3, h]

lemma sampleAux_spec (r : Nat → Nat) :
    ∀ (k i : Nat) (pool : List Nat), k ≤ pool.length → pool.Nodup →
      (sampleAux r i k pool).length = k ∧
      (∀ x ∈ sampleAux r i k pool, x ∈ pool) ∧
      (sampleAux r i k pool).Nodup := by
  intro k
  induction k with
  | zero => intro i pool _ _; simp [sampleAux]
  | succ k ih =>
      intro i pool h hn
      have hlen : 0 < pool.length := Nat.lt_of_lt_of_le (Nat.succ_pos k) h
      have hidx : r i % pool.length < pool.length := Nat.mod_lt _ hlen
      have hgetD : pool.getD (r i % pool.length) 0 = pool.get ⟨r i % pool.length, hidx⟩ := by
        rw [List.getD_eq_getElem pool 0 hidx]
        simp
      have hxmem : pool.getD (r i % pool.length) 0 ∈ pool := by
        rw [hgetD]
        exact List.get_mem pool _ hidx
      have herase : (pool.erase (pool.getD (r i % pool.length) 0)).length = pool.length - 1 :=
        List.length_erase_of_mem hxmem
      have hk : k ≤ (pool.erase (pool.getD (r i % pool.length) 0)).length := by omega
      obtain ⟨ihlen, ihsub, ihnd⟩ :=
        ih (i + 1) (pool.erase (pool.getD (r i % pool.length) 0)) hk (hn.erase _)
      refine ⟨?_, ?_, ?_⟩
      · rw [show sampleAux r i (k + 1) pool =
            pool.getD (r i % pool.length) 0 ::
              sampleAux r (i + 1) k (pool.erase (pool.getD (r i % pool.length) 0))
          from rfl]
        simp only [List.length_cons, ihlen]
      · intro x hx
        rw [show sampleAux r i (k + 1) pool =
            pool.getD (r i % pool.length) 0 ::
              sampleAux r (i + 1) k (pool.erase (pool.getD (r i % pool.length) 0))
          from rfl] at hx
        rcases List.mem_cons.mp hx with h1 | h1
        · rw [h1]; exact hxmem
        · exact List.erase_subset _ _ (ihsub x h1)
      · rw [show sampleAux r i (k + 1) pool =
            pool.getD (r i % pool.length) 0 ::
              sampleAux r (i + 1) k (pool.erase (pool.getD (r i % pool.length) 0))
          from rfl]
        refine List.nodup_cons.mpr ⟨?_, ihnd⟩
        intro hmem
        have : pool.getD (r i % pool.length) 0 ∈
            pool.erase (pool.getD (r i % pool.length) 0) := ihsub _ hmem
        exact absurd ((hn.mem_erase_iff).mp this).1 (by simp)

lemma new_flakes_ok (s : Snow) (r : Nat → Nat) (h : s.width * s.intensity / 100 ≤ s.width) :
    new_flakes s r =
      Except.ok ((sampleCols s r).map (fun c => ((0 : Int), (c : Int)))) := by
  unfold new_flakes randomSample sampleCols
  rw [if_pos h]

lemma sampleCols_spec (s : Snow) (r : Nat → Nat)
    (h : s.width * s.intensity / 100 ≤ s.width) :
    (sampleCols s r).length = s.width * s.intensity / 100 ∧
    (∀ c ∈ sampleCols s r, c < s.width) ∧
    (sampleCols s r).Nodup := by
  obtain ⟨h1, h2, h3⟩ := sampleAux_spec r (s.width * s.intensity / 100) 0
    (List.range s.width) (by simpa using h) (List.nodup_range s.width)
  exact ⟨h1, fun c hc => List.mem_range.mp (h2 c hc), h3⟩

lemma update_flakes_eq (s : Snow) (rM rS : Nat → Nat) (t : Snow)
    (h : update_flakes s rM rS = Except.ok t) :
    ∃ fresh, new_flakes s rS = Except.ok fresh ∧
      t = { s with flakes := (moved_flakes s.flakes rM ++ fresh).filter
                      (fun f => f.1 < (s.height : Int)) } := by
  unfold update_flakes at h
  cases hnf : new_flakes s rS with
  | error e => rw [hnf] at h; cases h
  | ok fresh =>
      rw [hnf] at h
      injection h with h
      exact ⟨fresh, rfl, h.symm⟩

lemma shimmy_moved_length (r : Nat → Nat) :
    ∀ (i : Nat) (l : List (Int × Int)), (shimmy_moved r i l).length = l.length := by
  intro i l
  induction l generalizing i with
  | nil => rfl
  | cons f rest ih => cases f; simp [shimmy_moved, ih]

lemma shimmy_moved_getD (r : Nat → Nat) :
    ∀ (l : List (Int × Int)) (i j : Nat), j < l.length →
      (shimmy_moved r i l).getD j (0, 0) =
        ((l.getD j (0, 0)).1 + 1, (l.getD j (0, 0)).2 + choice3 (r (i + j))) := by
  intro l
  induction l with
  | nil => intro i j h; simp at h
  | cons f rest ih =>
      intro i j h
      cases f with
      | mk row col =>
          cases j with
          | zero => simp [shimmy_moved]
          | succ j =>
              have hj : j < rest.length := by simpa using h
              have := ih (i + 1) j hj
              have harg : i + 1 + j = i + (j + 1) := by omega
              rw [harg] at this
              simpa [shimmy_moved] using this

/-- Claim C4: after update_flakes completes successfully, every flake
remaining in the collection has row strictly below height; in particular
no flake at row = height survives, so the moved image of a flake at
(height - 1, c), which sits at row = height, is removed by that tick. -/
theorem c4_no_flake_at_or_below_bottom (s : Snow) (rM rS : Nat → Nat) (t : Snow)
    (h : update_flakes s rM rS = Except.ok t) :
    (∀ f ∈ t.flakes, f.1 < (s.height : Int)) ∧
    (∀ c : Int, ((s.height : Int), c) ∉ t.flakes) := by
  obtain ⟨fresh, _, rfl⟩ := update_flakes_eq s rM rS t h
  constructor
  · intro f hf
    have := (List.mem_filter.mp hf).2
    simpa using this
  · intro c hc
    have := (List.mem_filter.mp hc).2
    simp at this

/-- Witness for C4 at a concrete state: height 3, one flake on the bottom
row; the tick succeeds and the resulting collection no longer holds its
moved image (nor any flake at row 3). -/
theorem c4_witness :
    update_flakes ⟨3, 5, 2, [(2, 1)]⟩ (fun _ => 0) (fun _ => 0) = Except.ok ⟨3, 5, 2, []⟩ ∧
    (((3 : Nat) : Int), (7 : Int)) ∉ (Snow.mk 3 5 2 []).flakes := by
  have h : update_flakes ⟨3, 5, 2, [(2, 1)]⟩ (fun _ => 0) (fun _ => 0) =
      Except.ok ⟨3, 5, 2, []⟩ := by rfl
  exact ⟨h, (c4_no_flake_at_or_below_bottom _ _ _ _ h).2 7⟩

/-- Claim C9: the removal step of update_flakes filters on the row alone:
any moved flake whose column lies outside [0, width) is still retained,
provided only that its row is below height. -/
theorem c9_row_only_removal (s : Snow) (rM rS : Nat → Nat) (t : Snow)
    (h : update_flakes s rM rS = Except.ok t) :
    ∀ f ∈ moved_flakes s.flakes rM, (f.2 < 0 ∨ (s.width : Int) ≤ f.2) →
      f.1 < (s.height : Int) → f ∈ t.flakes := by
  obtain ⟨fresh, _, rfl⟩ := update_flakes_eq s rM rS t h
  intro f hf _ hrow
  exact List.mem_filter.mpr ⟨List.mem_append_left _ hf, by simpa using hrow⟩

/-- Witness for C9: a flake drifting to column -6 (outside a field of
width 3) survives the tick because its row 1 is still below height 5. -/
theorem c9_witness :
    update_flakes ⟨5, 3, 0, [(0, -5)]⟩ (fun _ => 0) (fun _ => 0) =
      Except.ok ⟨5, 3, 0, [(1, -6)]⟩ ∧
    ((1 : Int), (-6 : Int)) ∈ (Snow.mk 5 3 0 [(1, -6)]).flakes := by
  have h : update_flakes ⟨5, 3, 0, [(0, -5)]⟩ (fun _ => 0) (fun _ => 0) =
      Except.ok ⟨5, 3, 0, [(1, -6)]⟩ := by rfl
  refine ⟨h, c9_row_only_removal _ _ _ _ h (1, -6) ?_ ?_ ?_⟩
  · decide
  · exact Or.inl (by decide)
  · decide

/-- Claim C7: moved_flakes preserves the flake count, and the output flake
at each index is the input flake moved down one row with its column
shifted by choice3 of the per-flake entropy, a value in [-1, 0, 1]. -/
theorem c7_moved_flakes_shape (flakes : List (Int × Int)) (r : Nat → Nat) :
    (moved_flakes flakes r).length = flakes.length ∧
    (∀ j, j < flakes.length →
      (moved_flakes flakes r).getD j (0, 0) =
        ((flakes.getD j (0, 0)).1 + 1, (flakes.getD j (0, 0)).2 + choice3 (r j))) ∧
    (∀ n, choice3 n = -1 ∨ choice3 n = 0 ∨ choice3 n = 1) := by
  refine ⟨shimmy_moved_length r 0 flakes, fun j hj => ?_, choice3_cases⟩
  have := shimmy_moved_getD r flakes 0 j hj
  simpa using this

/-- Witness for C7 on a one-flake list with constant entropy 0. -/
theorem c7_witness :
    (moved_flakes [((0 : Int), (3 : Int))] (fun _ => 0)).length = 1 ∧
    (moved_flakes [((0 : Int), (3 : Int))] (fun _ => 0)).getD 0 (0, 0) =
      ((0 : Int) + 1, (3 : Int) + choice3 0) := by
  constructor
  · exact (c7_moved_flakes_shape [((0 : Int), (3 : Int))] (fun _ => 0)).1
  · exact (c7_moved_flakes_shape [((0 : Int), (3 : Int))] (fun _ => 0)).2.1 0 (by decide)

lemma single_char_ne_of_not_mem (c : Char) (d : Char) (hc : c ∈ digitChars)
    (hd : d ∉ digitChars) : String.mk [c] ≠ String.mk [d] := by
  intro hEq
  have : c = d := by simpa [String.ext_iff] using hEq
  exact hd (this ▸ hc)

/-- Claim C8: the command decoding of the input loop: i increments the
intensity clamped at 10, d decrements it clamped at 0, a single digit sets
it to that digit, h toggles the help flag, and any line matching none of
the command forms (the empty line included) leaves the state unchanged;
consequently ten i commands from intensity 0 give exactly 10 and a d
command at intensity 0 gives 0. -/
theorem c8_input_decoding :
    (∀ st, (user_input_handler_step st "i").intensity = min (st.intensity + 1) 10) ∧
    (∀ st, ((user_input_handler_step st "d").intensity : Int) =
        max ((st.intensity : Int) - 1) 0) ∧
    (∀ st c, c ∈ digitChars →
        (user_input_handler_step st (String.mk [c])).intensity = digitValue c) ∧
    (∀ st, (user_input_handler_step st "h").display_help = !st.display_help) ∧
    (∀ st line, line ≠ "x" → line ≠ "i" → line ≠ "d" → line ≠ "h" →
        (∀ c, line.toList = [c] → c ∉ digitChars) →
        user_input_handler_step st line = st) ∧
    (user_input_loop ⟨0, true, true⟩ (List.replicate 10 "i")).intensity = 10 ∧
    (user_input_handler_step ⟨0, true, true⟩ "d").intensity = 0 := by
  refine ⟨fun st => rfl, fun st => ?_, fun st c hc => ?_, fun st => rfl, ?_, by rfl, by rfl⟩
  · show ((max (st.intensity - 1) 0 : Nat) : Int) = max ((st.intensity : Int) - 1) 0
    omega
  · have hx : String.mk [c] ≠ "x" := single_char_ne_of_not_mem c 'x' hc (by decide)
    have hi : String.mk [c] ≠ "i" := single_char_ne_of_not_mem c 'i' hc (by decide)
    have hd : String.mk [c] ≠ "d" := single_char_ne_of_not_mem c 'd' hc (by decide)
    have hh : String.mk [c] ≠ "h" := single_char_ne_of_not_mem c 'h' hc (by decide)
    unfold user_input_handler_step
    rw [if_neg hx, if_neg hi, if_neg hd, if_neg hh]
    show (if c ∈ digitChars then { st with intensity := digitValue c } else st).intensity =
      digitValue c
    rw [if_pos hc]
  · intro st line h1 h2 h3 h4 h5
    unfold user_input_handler_step
    rw [if_neg h1, if_neg h2, if_neg h3, if_neg h4]
    cases hl : line.toList with
    | nil => rfl
    | cons c rest =>
        cases rest with
        | nil =>
            show (if c ∈ digitChars then { st with intensity := digitValue c } else st) = st
            rw [if_neg (h5 c hl)]
        | cons d rest2 => rfl

/-- Witness for C8: the digit command 7 and an unrecognized word at a
concrete state. -/
theorem c8_witness :
    (user_input_handler_step ⟨3, true, false⟩ (String.mk ['7'])).intensity = digitValue '7' ∧
    user_input_handler_step ⟨3, true, false⟩ "" = ⟨3, true, false⟩ :=
  ⟨c8_input_decoding.2.2.1 ⟨3, true, false⟩ '7' (by decide),
   c8_input_decoding.2.2.2.2.1 ⟨3, true, false⟩ "" (by decide) (by decide) (by decide)
     (by decide) (by intro c h; simp at h)⟩

/-- Claim C10: any input line keeps an intensity that is at most 10 at
most 10 (so starting in [0, 9] the intensity stays in [0, 10], the lower
bound holding because intensity is a natural number), and with intensity
at most 10 the spawn count never exceeds the width, so new_flakes always
succeeds: its sample request fits the population. -/
theorem c10_intensity_invariant_spawn_safe :
    (∀ (st : InputState) (line : String), st.intensity ≤ 10 →
        (user_input_handler_step st line).intensity ≤ 10) ∧
    (∀ (s : Snow) (r : Nat → Nat), s.intensity ≤ 10 →
        new_flakes s r =
          Except.ok ((sampleCols s r).map (fun c => ((0 : Int), (c : Int)))) ∧
        (sampleCols s r).length ≤ s.width) := by
  constructor
  · intro st line h
    unfold user_input_handler_step
    split
    · exact h
    split
    · exact Nat.min_le_right _ _
    split
    · show max (st.intensity - 1) 0 ≤ 10
      omega
    split
    · exact h
    cases hl : line.toList with
    | nil => exact h
    | cons c rest =>
        cases rest with
        | nil =>
            show (if c ∈ digitChars then { st with intensity := digitValue c }
              else st).intensity ≤ 10
            by_cases hc : c ∈ digitChars
            · rw [if_pos hc]
              show digitValue c ≤ 10
              simp only [digitChars, List.mem_cons, List.not_mem_nil, or_false] at hc
              rcases hc with rfl | rfl | rfl | rfl | rfl | rfl | rfl | rfl | rfl | rfl <;> decide
            · rw [if_neg hc]
              exact h
        | cons d rest2 => exact h
  · intro s r h
    have hcount : s.width * s.intensity / 100 ≤ s.width := by
      have h1 : s.width * s.intensity ≤ s.width * 100 :=
        Nat.mul_le_mul_left _ (le_trans h (by norm_num))
      calc s.width * s.intensity / 100 ≤ s.width * 100 / 100 := Nat.div_le_div_right h1
        _ = s.width := Nat.mul_div_cancel s.width (by norm_num)
    have hlen := (sampleCols_spec s r hcount).1
    exact ⟨new_flakes_ok s r hcount, by omega⟩

/-- Witness for C10: the i command at the intensity ceiling, and a spawn
at width 5 with intensity 10. -/
theorem c10_witness :
    (user_input_handler_step ⟨10, true, true⟩ "i").intensity ≤ 10 ∧
    new_flakes ⟨3, 5, 10, []⟩ (fun _ => 0) =
      Except.ok ((sampleCols ⟨3, 5, 10, []⟩ (fun _ => 0)).map
        (fun c => ((0 : Int), (c : Int)))) ∧
    (sampleCols ⟨3, 5, 10, []⟩ (fun _ => 0)).length ≤ 5 :=
  ⟨c10_intensity_invariant_spawn_safe.1 ⟨10, true, true⟩ "i" (by decide),
   (c10_intensity_invariant_spawn_safe.2 ⟨3, 5, 10, []⟩ (fun _ => 0) (by decide)).1,
   (c10_intensity_invariant_spawn_safe.2 ⟨3, 5, 10, []⟩ (fun _ => 0) (by decide)).2⟩

/-- Counterexample to C6 as stated: at width 3 and intensity 500 the
computed count int(3 * 500 / 100) = 15 exceeds the population, so
new_flakes raises the ValueError of random.sample instead of returning a
list of 15 flakes. -/
theorem c6_counterexample :
    new_flakes ⟨1, 3, 500, []⟩ (fun _ => 0) =
      Except.error "Sample larger than population or is negative" := by rfl

/-- Claim C6 amended: whenever the computed count floor(width * intensity
/ 100) does not exceed the width, new_flakes returns exactly that many
flakes, all at row 0 (visible in the shape of the map), with pairwise
distinct columns drawn from [0, width) without replacement, and never
more entries than the width. -/
theorem c6_amended_spawn_spec (s : Snow) (r : Nat → Nat)
    (h : s.width * s.intensity / 100 ≤ s.width) :
    new_flakes s r =
      Except.ok ((sampleCols s r).map (fun c => ((0 : Int), (c : Int)))) ∧
    (sampleCols s r).length = s.width * s.intensity / 100 ∧
    (sampleCols s r).Nodup ∧
    (∀ c ∈ sampleCols s r, c < s.width) ∧
    (sampleCols s r).length ≤ s.width := by
  obtain ⟨h1, h2, h3⟩ := sampleCols_spec s r h
  exact ⟨new_flakes_ok s r h, h1, h3, h2, by omega⟩

/-- Witness for the amended C6 at width 5, intensity 100: the count 5
equals the width, the sample is the full column range. -/
theorem c6_witness :
    new_flakes ⟨3, 5, 100, []⟩ (fun _ => 0) =
      Except.ok ((sampleCols ⟨3, 5, 100, []⟩ (fun _ => 0)).map
        (fun c => ((0 : Int), (c : Int)))) ∧
    (sampleCols ⟨3, 5, 100, []⟩ (fun _ => 0)).length = 5 ∧
    (sampleCols ⟨3, 5, 100, []⟩ (fun _ => 0)).Nodup := by
  have h := c6_amended_spawn_spec ⟨3, 5, 100, []⟩ (fun _ => 0) (by decide)
  exact ⟨h.1, h.2.1, h.2.2.1⟩

/-- Claim C1, evaluated where it fails and where it holds: at width 5 and
intensity 201 the computed count int(5 * 201 / 100) = 10 exceeds the
width and new_flakes raises the ValueError of random.sample instead of
clamping; at the height 3, width 5, intensity 100 scenario the count is
exactly 5, and one tick from the empty state succeeds with 5 flakes, all
at row 0. -/
theorem c1_spawn_overflow_raises :
    new_flakes ⟨3, 5, 201, []⟩ (fun _ => 0) =
      Except.error "Sample larger than population or is negative" ∧
    update_flakes ⟨3, 5, 100, []⟩ (fun _ => 0) (fun _ => 0) =
      Except.ok ⟨3, 5, 100, [(0, 0), (0, 1), (0, 2), (0, 3), (0, 4)]⟩ := ⟨rfl, rfl⟩

/-- Claim C2, evaluated where it fails: a flake at column -1 passes the
guard col < width, and the assignment grid[0][-1] marks the last cell of
the row (Python negative indexing), so render paints a marker at column 4
of a width 5 field instead of skipping the flake. -/
theorem c2_negative_column_marks_cell :
    render ⟨1, 5, 0, [(0, -1)]⟩ = Except.ok "    *" ∧
    Except.ok "    *" ≠ (Except.ok "     " : Except String String) := by
  constructor
  · rfl
  · intro hEq
    injection hEq with hEq
    simp [String.ext_iff] at hEq

/-- Claim C3, evaluated where it fails: at end of input the read raises
EOFError out of the loop and the running flag is untouched, whereas the x
command sets running to false; the two behaviours differ. -/
theorem c3_eof_not_handled :
    user_input_handler_read ⟨2, true, true⟩ none = Except.error "EOFError" ∧
    user_input_handler_step ⟨2, true, true⟩ "x" = ⟨2, false, true⟩ := ⟨rfl, rfl⟩

/-- Claim C5, evaluated where it fails: with height 2, width 3 and a
flake at column -4, render raises IndexError (the assignment grid[0][-4]
on a row of length 3) instead of returning two newline-joined lines of
three characters. -/
theorem c5_render_index_error :
    render ⟨2, 3, 0, [(0, -4)]⟩ = Except.error "IndexError: list index out of range" ∧
    render ⟨2, 3, 0, [(0, 1), (1, 2)]⟩ = Except.ok " * \n  *" := ⟨rfl, rfl⟩
